import Mathlib

/-!
Shallow embedding of the KPI core of `src/data/app/utils.py`
(`compute_kpis`, `flag_risk`, `summary_table`) from the repository
Control-Financiero-Proyectos-Inteligente.

Value model.  Every numeric cell that the loader coerces with
`pd.to_numeric(..., errors="coerce")` (budget, cumulative_spend) is a Python
float that may be `nan`; it is modelled as `Option ℚ`: `some q` is a finite
float of exact value `q`, `none` is `nan`.  Arithmetic is exact rational
arithmetic: float rounding, overflow and the infinities are not modelled.
Dates are parsed calendar dates, modelled as integer day numbers, so day
differences are exact integers.

Sorting model.  pandas `sort_values` and `groupby` sort with numpy's default
`quicksort`, which on arrays below its 16-element threshold is a stable
insertion sort; the embedding models the sorts as stable (exact for small
frames; tie order on frames of 16 or more rows is not guaranteed by numpy and
is outside the model).
-/

deriving instance DecidableEq for Except

/-- Python float cell: `some q` is a finite float of exact value `q`, `none` is
`nan` (produced upstream by `pd.to_numeric(..., errors="coerce")` on a missing
or malformed cell). -/
abbrev PyFloat := Option ℚ

/-- Float addition; `nan` propagates. -/
def pfAdd : PyFloat → PyFloat → PyFloat
  | some a, some b => some (a + b)
  | _, _ => none

/-- Float subtraction; `nan` propagates. -/
def pfSub : PyFloat → PyFloat → PyFloat
  | some a, some b => some (a - b)
  | _, _ => none

/-- Float multiplication; `nan` propagates. -/
def pfMul : PyFloat → PyFloat → PyFloat
  | some a, some b => some (a * b)
  | _, _ => none

/-- Float division; `nan` propagates.  Division by exact zero would raise
`ZeroDivisionError` in Python; every division reached in `compute_kpis` is
guarded (budget truthiness, day counts clamped to at least 1), so the zero
case below is unreachable on the embedded paths and mapped to `none`. -/
def pfDiv : PyFloat → PyFloat → PyFloat
  | some a, some b => if b = 0 then none else some (a / b)
  | _, _ => none

/-- Python `abs` on a float; `abs(nan)` is `nan`. -/
def pfAbs (v : PyFloat) : PyFloat := v.map (fun q => |q|)

/-- Python truthiness of a float: `0.0` is falsy, every other float value,
including `nan`, is truthy. -/
def pyTruthy : PyFloat → Bool
  | some q => q ≠ 0
  | none => true

/-- Python `>=` between a float value and a finite threshold; every comparison
with `nan` is `False`. -/
def pyGe (v : PyFloat) (t : ℚ) : Bool :=
  match v with
  | some a => t ≤ a
  | none => false

/-- Python `>` between two float values; every comparison with `nan` is
`False`. -/
def pyGt : PyFloat → PyFloat → Bool
  | some a, some b => b < a
  | _, _ => false

/-- Model of `np.clip(v, lo, hi)`, i.e. `min(max(v, lo), hi)`; `nan` propagates. -/
def pyClip (v : PyFloat) (lo hi : ℚ) : PyFloat :=
  v.map (fun q => min (max q lo) hi)

/-- One row of the per-project frame `df_proj` handed to `compute_kpis`:
the columns the KPI core reads.  The loader has already parsed the dates and
coerced `budget` and `cumulative_spend` to (possibly `nan`) floats. -/
structure Row where
  project_id : String
  project_name : String
  budget : PyFloat
  start_date : ℤ
  end_date : ℤ
  date : ℤ
  cumulative_spend : PyFloat
deriving DecidableEq, Repr

/-- The dict returned by `compute_kpis` (utils.py lines 50-61). -/
structure KPIRecord where
  budget : PyFloat
  latest_spend : PyFloat
  pct_execution : PyFloat
  variance_pct : PyFloat
  burn_rate : PyFloat
  days_elapsed : ℤ
  days_total : ℤ
  forecast_to_complete : PyFloat
  risk_score : PyFloat
  latest_date : ℤ
deriving DecidableEq, Repr

/-- Python exceptions that the embedded code can raise.  `indexError` is what
pandas positional indexing (`.iloc[0]` on an empty frame) raises; `keyError`
is a dict subscript on a missing key.  `emptySeriesError` is the error class
named by the specification; it is declared here only so that the
specification's claim can be stated - the source defines no such class and
never produces this value. -/
inductive PyErr where
  | indexError
  | keyError
  | emptySeriesError
deriving DecidableEq, Repr

/-- Model of `df["start_date"].min()` over the non-empty frame `r0 :: rs`. -/
def startOf (r0 : Row) (rs : List Row) : ℤ :=
  rs.foldl (fun a r => min a r.start_date) r0.start_date

/-- Model of `df["end_date"].max()` over the non-empty frame `r0 :: rs`. -/
def endOf (r0 : Row) (rs : List Row) : ℤ :=
  rs.foldl (fun a r => max a r.end_date) r0.end_date

/-- Model of `df.sort_values("date").iloc[-1]`: the last row of the stably
date-sorted frame, i.e. the last row in original order among those of
maximum date. -/
def latestOf (r0 : Row) (rs : List Row) : Row :=
  rs.foldl (fun a r => if a.date ≤ r.date then r else a) r0

/-- The pattern `d if d > 0 else 1` applied to both day spans
(utils.py lines 25-26). -/
def clampPos (d : ℤ) : ℤ := if 0 < d then d else 1

/-- The value `days_total` (utils.py line 25). -/
def daysTotalOf (r0 : Row) (rs : List Row) : ℤ :=
  clampPos (endOf r0 rs - startOf r0 rs)

/-- The value `days_elapsed` (utils.py line 26). -/
def daysElapsedOf (r0 : Row) (rs : List Row) : ℤ :=
  clampPos ((latestOf r0 rs).date - startOf r0 rs)

/-- The assignment `latest_spend = float(latest["cumulative_spend"])` (utils.py line 24). -/
def latestSpendOf (r0 : Row) (rs : List Row) : PyFloat :=
  (latestOf r0 rs).cumulative_spend

/-- The assignment `pct_execution = latest_spend / budget if budget else 0`
(utils.py line 27). -/
def pctExecutionOf (r0 : Row) (rs : List Row) : PyFloat :=
  if pyTruthy r0.budget then pfDiv (latestSpendOf r0 rs) r0.budget else some 0

/-- The assignment `variance_pct = (latest_spend - budget) / budget if budget else 0`
(utils.py line 28). -/
def variancePctOf (r0 : Row) (rs : List Row) : PyFloat :=
  if pyTruthy r0.budget then
    pfDiv (pfSub (latestSpendOf r0 rs) r0.budget) r0.budget
  else some 0

/-- The assignment `burn_rate = latest_spend / days_elapsed if days_elapsed else 0`
(utils.py line 31); `days_elapsed` is an int, truthy iff nonzero. -/
def burnRateOf (r0 : Row) (rs : List Row) : PyFloat :=
  if daysElapsedOf r0 rs ≠ 0 then
    pfDiv (latestSpendOf r0 rs) (some ((daysElapsedOf r0 rs : ℚ)))
  else some 0

/-- The array `x = (df["date"] - start).dt.days.values.astype(float)` (utils.py
line 35).  Dates are exact integer day numbers, so every entry is finite. -/
def xsOf (r0 : Row) (rs : List Row) : List ℚ :=
  (r0 :: rs).map (fun r => ((r.date - startOf r0 rs : ℤ) : ℚ))

/-- The array `y = df["cumulative_spend"].values.astype(float)` (utils.py line 36). -/
def ysOf (r0 : Row) (rs : List Row) : List PyFloat :=
  (r0 :: rs).map (fun r => r.cumulative_spend)

/-- The fallback forecast `latest_spend * (days_total / days_elapsed)`
(utils.py lines 42 and 44); the division of the two ints is exact float
division. -/
def fallbackOf (r0 : Row) (rs : List Row) : PyFloat :=
  pfMul (latestSpendOf r0 rs)
    (some ((daysTotalOf r0 rs : ℚ) / (daysElapsedOf r0 rs : ℚ)))

/-- Degree-1 `np.polyfit(x, y, 1)` in exact arithmetic, on the caller's guard
`len(x) >= 2` with all values finite and not all of `x` zero.  When the normal
determinant `n*Σx² - (Σx)²` is nonzero (not all `x` equal) this is the unique
least-squares line.  When all `x` equal one nonzero value `c`, numpy scales the
Vandermonde columns to unit norm and `np.linalg.lstsq` returns the minimum-norm
solution of the scaled rank-1 system, which un-scales to slope `ȳ/(2c)` and
intercept `ȳ/2`.  (The `rcond` truncation of nearly-singular systems is a
floating-point feature with no exact-arithmetic counterpart and is not
modelled: rank here is exact.  When all `x` are zero, numpy's column scaling
divides by zero and `lstsq` raises `LinAlgError`; that case is handled by the
caller's `except` branch and never reaches this function.) -/
def polyfitLin (x y : List ℚ) : ℚ × ℚ :=
  let n : ℚ := x.length
  let sx := x.sum
  let sy := y.sum
  let sxx := (x.map (fun t => t * t)).sum
  let sxy := ((x.zip y).map (fun p => p.1 * p.2)).sum
  let det := n * sxx - sx * sx
  if det = 0 then
    (sy / n / (2 * x.headI), sy / n / 2)
  else
    ((n * sxy - sx * sy) / det, (sy - (n * sxy - sx * sy) / det * sx) / n)

/-- The forecast block of `compute_kpis` (utils.py lines 34-46): fit a
degree-1 line when there are at least two points and every value is finite,
evaluate it at `days_total`; otherwise, or when the fit raises (all day
offsets zero makes numpy's column scaling divide by zero and `lstsq` raise
`LinAlgError`, caught by the bare `except`), fall back to
`latest_spend * (days_total / days_elapsed)`.  The finiteness test
`all(np.isfinite(x))` is identically true here because dates are exact
integers. -/
def forecastOf (r0 : Row) (rs : List Row) : PyFloat :=
  if 2 ≤ (xsOf r0 rs).length ∧ (ysOf r0 rs).all (fun v => v.isSome) then
    if (xsOf r0 rs).all (fun t => t = 0) then fallbackOf r0 rs
    else
      some ((polyfitLin (xsOf r0 rs) ((ysOf r0 rs).map (fun v => v.getD 0))).1
              * (daysTotalOf r0 rs : ℚ)
            + (polyfitLin (xsOf r0 rs) ((ysOf r0 rs).map (fun v => v.getD 0))).2)
  else fallbackOf r0 rs

/-- The assignment `overload = (forecast_to_complete - budget) / budget if budget else 0`
(utils.py line 48). -/
def overloadOf (r0 : Row) (rs : List Row) : PyFloat :=
  if pyTruthy r0.budget then
    pfDiv (pfSub (forecastOf r0 rs) r0.budget) r0.budget
  else some 0

/-- The assignment `risk_score = float(np.clip((variance_pct*0.6 + overload*0.4)*100, -1000,
1000))` (utils.py line 49). -/
def riskScoreOf (r0 : Row) (rs : List Row) : PyFloat :=
  pyClip
    (pfMul
      (pfAdd (pfMul (variancePctOf r0 rs) (some (6/10)))
             (pfMul (overloadOf r0 rs) (some (4/10))))
      (some 100))
    (-1000) 1000

/-- The dict built by `compute_kpis` on a non-empty frame `r0 :: rs`
(utils.py lines 18-61). -/
def mkKpis (r0 : Row) (rs : List Row) : KPIRecord where
  budget := r0.budget
  latest_spend := latestSpendOf r0 rs
  pct_execution := pctExecutionOf r0 rs
  variance_pct := variancePctOf r0 rs
  burn_rate := burnRateOf r0 rs
  days_elapsed := daysElapsedOf r0 rs
  days_total := daysTotalOf r0 rs
  forecast_to_complete := forecastOf r0 rs
  risk_score := riskScoreOf r0 rs
  latest_date := (latestOf r0 rs).date

/-- The function `compute_kpis(df_proj)` (utils.py lines 13-61).  On an empty frame the
first statement executed, `float(df["budget"].iloc[0])`, raises `IndexError`
(positional indexer out of bounds); the source defines no error class of its
own. -/
def compute_kpis : List Row → Except PyErr KPIRecord
  | [] => .error .indexError
  | r0 :: rs => .ok (mkKpis r0 rs)

/-- The internal `overload` of `compute_kpis`, recomputed from the returned
record; the record stores `budget` and `forecast_to_complete` unchanged, so
this equals the value used on utils.py line 48. -/
def recordOverload (k : KPIRecord) : PyFloat :=
  if pyTruthy k.budget then
    pfDiv (pfSub k.forecast_to_complete k.budget) k.budget
  else some 0

/-- One reason of the `messages` list of `flag_risk`.  The payloads are the
float values interpolated into the Spanish f-strings of utils.py lines 73, 75
(their fixed-point decimal rendering is presentation and not modelled); the
other two messages are constant strings. -/
inductive Reason where
  | variance (pct100 : PyFloat)
  | riskScore (score : PyFloat)
  | overBudget
  | noRisk
deriving DecidableEq, Repr

/-- The `kpis` dict argument of `flag_risk`, restricted to the four keys the
function reads.  An outer `none` models an absent key: `kpis.get(key, 0)`
then yields the int default `0`, while a direct subscript `kpis[key]` raises
`KeyError`. -/
structure KpiDict where
  variance_pct : Option PyFloat
  risk_score : Option PyFloat
  forecast_to_complete : Option PyFloat
  budget : Option PyFloat
deriving DecidableEq, Repr

/-- The lookup `kpis.get(key, 0)`. -/
def dictGet (f : Option PyFloat) : PyFloat := f.getD (some 0)

/-- The dict built from a `compute_kpis` record: all four keys present. -/
def toDict (k : KPIRecord) : KpiDict where
  variance_pct := some k.variance_pct
  risk_score := some k.risk_score
  forecast_to_complete := some k.forecast_to_complete
  budget := some k.budget

/-- The function `flag_risk(kpis, variance_threshold, risk_threshold)` (utils.py lines
63-80); the source's defaults are `0.10` and `5.0`.  The source returns
`(is_risky, " | ".join(messages))`; the join is presentation, so the
`messages` list itself is returned here, in construction order.  The
message for a triggered variance or risk condition subscripts the dict
directly (`kpis["variance_pct"]`, `kpis["risk_score"]`), which raises
`KeyError` when the key is absent. -/
def flag_risk (kpis : KpiDict) (variance_threshold risk_threshold : ℚ) :
    Except PyErr (Bool × List Reason) := do
  let is_var := pyGe (pfAbs (dictGet kpis.variance_pct)) variance_threshold
  let is_risk := pyGe (pfAbs (dictGet kpis.risk_score)) risk_threshold
  let m1 ← if is_var then
      match kpis.variance_pct with
      | some v => pure [Reason.variance (pfMul v (some 100))]
      | none => Except.error PyErr.keyError
    else pure []
  let m2 ← if is_risk then
      match kpis.risk_score with
      | some v => pure [Reason.riskScore v]
      | none => Except.error PyErr.keyError
    else pure []
  let over := pyGt (dictGet kpis.forecast_to_complete) (dictGet kpis.budget)
  let m3 := if over then [Reason.overBudget] else []
  let messages := m1 ++ m2 ++ m3
  let messages := if messages = [] then [Reason.noRisk] else messages
  pure (is_var || is_risk || over, messages)

/-- One output row of `summary_table` (utils.py lines 86-95). -/
structure SummaryRow where
  project_id : String
  project_name : String
  budget : PyFloat
  latest_spend : PyFloat
  pct_execution : PyFloat
  variance_pct : PyFloat
  forecast_to_complete : PyFloat
  risk_score : PyFloat
deriving DecidableEq, Repr

/-- The group keys of `df.groupby("project_id")`: pandas iterates the distinct
keys in ascending sorted order (`sort=True` is the groupby default). -/
def groupIds (df : List Row) : List String :=
  List.insertionSort (fun a b => a ≤ b) (df.map (fun r => r.project_id)).dedup

/-- The group of `pid`: its rows in original frame order. -/
def groupOf (df : List Row) (pid : String) : List Row :=
  df.filter (fun r => r.project_id = pid)

/-- One entry of the `projects` list (utils.py lines 85-95).  `compute_kpis`
runs first and an empty group would propagate its error before
`grp["project_name"].iloc[0]` is read; a group of an occurring id is never
empty, so the `""` default of the name lookup is unreachable. -/
def summaryRowOf (df : List Row) (pid : String) : Except PyErr SummaryRow := do
  let k ← compute_kpis (groupOf df pid)
  pure { project_id := pid
         project_name := (((groupOf df pid).head?).map (fun r => r.project_name)).getD ""
         budget := k.budget
         latest_spend := k.latest_spend
         pct_execution := k.pct_execution
         variance_pct := k.variance_pct
         forecast_to_complete := k.forecast_to_complete
         risk_score := k.risk_score }

/-- The `for pid, grp in df.groupby("project_id")` loop of `summary_table`
over a given key list, appending one summary row per key; an error from
`compute_kpis` propagates immediately, as the uncaught exception does. -/
def summaryRowsOf (df : List Row) : List String → Except PyErr (List SummaryRow)
  | [] => pure []
  | pid :: rest => do
    let s ← summaryRowOf df pid
    let l ← summaryRowsOf df rest
    pure (s :: l)

/-- The `projects` list of `summary_table` before sorting: one row per
distinct project id, in groupby (ascending project id) order. -/
def groupRows (df : List Row) : Except PyErr (List SummaryRow) :=
  summaryRowsOf df (groupIds df)

/-- Sort key of the final sort; only applied to rows whose `risk_score` is not
`nan`. -/
def riskKey (s : SummaryRow) : ℚ := s.risk_score.getD 0

/-- The sort `DataFrame.sort_values("risk_score", ascending=False)` as pandas computes
it (`nargsort`): rows with `nan` key are set aside, the remaining rows are
reversed, arg-sorted ascending with numpy's default sort, the result is
reversed again, and the `nan` rows are appended at the end in original order
(`na_position="last"`).  The ascending sort is modelled as a stable insertion
sort, which is exactly numpy's algorithm below its 16-element quicksort
threshold; tie order on larger frames is not guaranteed by numpy and not
modelled. -/
def sortValuesDescRisk (rows : List SummaryRow) : List SummaryRow :=
  (List.insertionSort (fun a b => riskKey a ≤ riskKey b)
      (rows.filter (fun s => s.risk_score.isSome)).reverse).reverse
    ++ rows.filter (fun s => s.risk_score.isNone)

/-- The function `summary_table(df)` (utils.py lines 82-96). -/
def summary_table (df : List Row) : Except PyErr (List SummaryRow) := do
  let rows ← groupRows df
  pure (sortValuesDescRisk rows)

/-! Concrete inputs used by counterexamples and witnesses. -/

/-- A one-point series whose budget cell is missing (coerced to `nan`). -/
def rowNanBudget : Row :=
  { project_id := "p", project_name := "P", budget := none,
    start_date := 0, end_date := 10, date := 5, cumulative_spend := some 100 }

/-- A one-point series whose budget is exactly `0`. -/
def rowZeroBudget : Row :=
  { project_id := "p", project_name := "P", budget := some 0,
    start_date := 0, end_date := 10, date := 5, cumulative_spend := some 100 }

/-- A one-point series whose spend cell is missing (coerced to `nan`). -/
def rowNanSpend : Row :=
  { project_id := "p", project_name := "P", budget := some 1000,
    start_date := 0, end_date := 10, date := 5, cumulative_spend := none }

/-- One point of the specification's end-to-end example project. -/
def exRow (d : ℤ) (s : ℚ) : Row :=
  { project_id := "p1", project_name := "P1", budget := some 1000,
    start_date := 0, end_date := 40, date := d, cumulative_spend := some s }

/-- The specification's end-to-end example: budget 1000, points
(day0, 0), (day10, 400), (day20, 800), start day0, end day40. -/
def exSeries : List Row := [exRow 0 0, exRow 10 400, exRow 20 800]
/-- A series whose end date precedes its start date and whose single point is
dated before the start. -/
def rowBadDates : Row :=
  { project_id := "p", project_name := "P", budget := some 5,
    start_date := 100, end_date := 0, date := -3, cumulative_spend := some 1 }
/-- A concrete record with the end-to-end example's KPI values. -/
def exRecord : KPIRecord :=
  { budget := some 1000, latest_spend := some 800,
    pct_execution := some (8/10), variance_pct := some (-(2/10)),
    burn_rate := some 40, days_elapsed := 20, days_total := 40,
    forecast_to_complete := some 1600, risk_score := some 12,
    latest_date := 20 }
/-- The dict with every absent key filled in as a present `0`, the value
`dict.get(key, 0)` supplies. -/
def fillAbsent (d : KpiDict) : KpiDict where
  variance_pct := some (dictGet d.variance_pct)
  risk_score := some (dictGet d.risk_score)
  forecast_to_complete := some (dictGet d.forecast_to_complete)
  budget := some (dictGet d.budget)
/-- Sum of squared residuals of the line `y = m*x + c` over a list of
(x, y) points. -/
def SSE (m c : ℚ) (pts : List (ℚ × ℚ)) : ℚ :=
  (pts.map (fun p => (p.2 - (m * p.1 + c))^2)).sum

/-- First coordinates summed. -/
def sX (pts : List (ℚ × ℚ)) : ℚ := (pts.map (fun p => p.1)).sum

/-- Second coordinates summed. -/
def sY (pts : List (ℚ × ℚ)) : ℚ := (pts.map (fun p => p.2)).sum

/-- Squared first coordinates summed. -/
def sXX (pts : List (ℚ × ℚ)) : ℚ := (pts.map (fun p => p.1 ^ 2)).sum

/-- Products of the coordinates summed. -/
def sXY (pts : List (ℚ × ℚ)) : ℚ := (pts.map (fun p => p.1 * p.2)).sum

/-- Squared second coordinates summed. -/
def sYY (pts : List (ℚ × ℚ)) : ℚ := (pts.map (fun p => p.2 ^ 2)).sum
/-- Row `b` may come after row `a` in a summary table: `b` has a `nan` risk
score (placed at the end), or both risk scores are numbers and `b`'s does not
exceed `a`'s (descending order). -/
def rowAfter (a b : SummaryRow) : Prop :=
  b.risk_score = none ∨
    (∃ qa qb, a.risk_score = some qa ∧ b.risk_score = some qb ∧ qb ≤ qa)
/-- Two identical one-point projects differing only in id and name; both get
the same risk score, so they tie in the summary sort. -/
def rowTie (pid nm : String) : Row :=
  { project_id := pid, project_name := nm, budget := some 1000,
    start_date := 0, end_date := 10, date := 5, cumulative_spend := some 500 }

/-- A two-project frame whose encounter order is "b" then "a". -/
def dfTie : List Row := [rowTie "b" "B", rowTie "a" "A"]

/-- The summary row both tied projects produce. -/
def tieRow (pid nm : String) : SummaryRow :=
  { project_id := pid, project_name := nm, budget := some 1000,
    latest_spend := some 500, pct_execution := some (1/2),
    variance_pct := some (-(1/2)), forecast_to_complete := some 1000,
    risk_score := some (-30) }

/-! Small algebraic facts about the value model. -/

theorem pfAdd_none_left (b : PyFloat) : pfAdd none b = none := rfl

theorem pfMul_none_left (b : PyFloat) : pfMul none b = none := rfl

theorem pfSub_none_right (a : PyFloat) : pfSub a none = none := by
  cases a <;> rfl

theorem pfDiv_none_right (a : PyFloat) : pfDiv a none = none := by
  cases a <;> rfl

theorem clampPos_pos (d : ℤ) : 1 ≤ clampPos d := by
  unfold clampPos; split <;> omega

/-! Claim C1.  The specification says `compute_kpis` fails with a defined,
named `EmptySeriesError` on an empty series.  The code does fail - the very
first access `float(df["budget"].iloc[0])` raises - but the error is the
generic pandas `IndexError`; no `EmptySeriesError` class exists anywhere in
the source. -/

/-- C1 counterexample: on the empty frame `compute_kpis` fails with
`IndexError`, which is not the specification's named `EmptySeriesError`,
so the claim as stated is false. -/
theorem C1_counterexample :
    compute_kpis [] = Except.error PyErr.indexError ∧
    PyErr.indexError ≠ PyErr.emptySeriesError := by
  exact ⟨rfl, by decide⟩

/-- C1 (amended): on every empty frame `compute_kpis` fails with the generic
`IndexError` raised by positional indexing (so it surfaces an error rather
than returning a zero-valued record), but the error is not a defined
`EmptySeriesError` - the source declares no such class. -/
theorem C1_empty_frame (rows : List Row) (h : rows = []) :
    compute_kpis rows = Except.error PyErr.indexError := by
  subst h; rfl

/-- Witness for C1: the amended theorem applied to the empty frame. -/
theorem C1_empty_frame_witness :
    compute_kpis [] = Except.error PyErr.indexError :=
  C1_empty_frame [] rfl

/-! Claim C2.  With budget exactly `0`, the guards `if budget` short-circuit
every division and `pct_execution`, `variance_pct`, `overload` (hence
`risk_score`) are all `0`.  With an absent budget the coerced value is `nan`,
which is truthy in Python, so the divisions run and propagate `nan` - the
degraded values are `nan`, not `0` (though still no division failure). -/

/-- C2 counterexample: on a series whose budget cell is missing (`nan`),
`pct_execution` is not `0` - it is `nan` - so the claim's "0 or absent"
hypothesis is too broad. -/
theorem C2_counterexample :
    ¬ ((compute_kpis [rowNanBudget]).toOption.map (fun k => k.pct_execution)
        = some (some 0)) := by decide

/-- C2 (amended): on every non-empty series whose budget is exactly `0`,
`compute_kpis` succeeds with `pct_execution = variance_pct = overload = 0`
and `risk_score = 0` (the clamp of the overload term alone, which is `0`);
on every non-empty series whose budget is absent (`nan`), `compute_kpis`
still succeeds - no division failure - but those fields are all `nan`. -/
theorem C2_budget_zero_or_nan (r0 : Row) (rs : List Row) :
    (r0.budget = some 0 →
      compute_kpis (r0 :: rs) = Except.ok (mkKpis r0 rs) ∧
      (mkKpis r0 rs).pct_execution = some 0 ∧
      (mkKpis r0 rs).variance_pct = some 0 ∧
      recordOverload (mkKpis r0 rs) = some 0 ∧
      (mkKpis r0 rs).risk_score = some 0) ∧
    (r0.budget = none →
      compute_kpis (r0 :: rs) = Except.ok (mkKpis r0 rs) ∧
      (mkKpis r0 rs).pct_execution = none ∧
      (mkKpis r0 rs).variance_pct = none ∧
      recordOverload (mkKpis r0 rs) = none ∧
      (mkKpis r0 rs).risk_score = none) := by
  constructor
  · intro hb
    have ht : pyTruthy r0.budget = false := by rw [hb]; rfl
    have hpct : (mkKpis r0 rs).pct_execution = some 0 := by
      show pctExecutionOf r0 rs = some 0
      unfold pctExecutionOf; rw [ht]; rfl
    have hvar : (mkKpis r0 rs).variance_pct = some 0 := by
      show variancePctOf r0 rs = some 0
      unfold variancePctOf; rw [ht]; rfl
    have hov : recordOverload (mkKpis r0 rs) = some 0 := by
      unfold recordOverload
      have : (mkKpis r0 rs).budget = r0.budget := rfl
      rw [this, ht]; rfl
    have hrisk : (mkKpis r0 rs).risk_score = some 0 := by
      show riskScoreOf r0 rs = some 0
      unfold riskScoreOf
      have hov' : overloadOf r0 rs = some 0 := by
        unfold overloadOf; rw [ht]; rfl
      rw [show variancePctOf r0 rs = some 0 from hvar, hov']
      show pyClip (some ((0 * (6/10) + 0 * (4/10)) * 100)) (-1000) 1000 = some 0
      norm_num [pyClip]
    exact ⟨rfl, hpct, hvar, hov, hrisk⟩
  · intro hb
    have ht : pyTruthy r0.budget = true := by rw [hb]; rfl
    have hpct : (mkKpis r0 rs).pct_execution = none := by
      show pctExecutionOf r0 rs = none
      unfold pctExecutionOf; rw [ht, hb]
      simp only [if_true]
      exact pfDiv_none_right _
    have hvar : (mkKpis r0 rs).variance_pct = none := by
      show variancePctOf r0 rs = none
      unfold variancePctOf; rw [ht, hb]
      simp only [if_true]
      rw [pfSub_none_right]
      rfl
    have hov : recordOverload (mkKpis r0 rs) = none := by
      unfold recordOverload
      have hbud : (mkKpis r0 rs).budget = r0.budget := rfl
      rw [hbud, ht, hb]
      simp only [if_true]
      rw [pfSub_none_right]
      rfl
    have hrisk : (mkKpis r0 rs).risk_score = none := by
      show riskScoreOf r0 rs = none
      unfold riskScoreOf
      rw [show variancePctOf r0 rs = none from hvar]
      rfl
    exact ⟨rfl, hpct, hvar, hov, hrisk⟩

/-- Witness for C2: the amended theorem applied to a concrete zero-budget
series and a concrete missing-budget series. -/
theorem C2_budget_zero_or_nan_witness :
    ((mkKpis rowZeroBudget []).pct_execution = some 0 ∧
      (mkKpis rowZeroBudget []).variance_pct = some 0 ∧
      recordOverload (mkKpis rowZeroBudget []) = some 0 ∧
      (mkKpis rowZeroBudget []).risk_score = some 0) ∧
    ((mkKpis rowNanBudget []).pct_execution = none ∧
      (mkKpis rowNanBudget []).variance_pct = none ∧
      recordOverload (mkKpis rowNanBudget []) = none ∧
      (mkKpis rowNanBudget []).risk_score = none) :=
  ⟨((C2_budget_zero_or_nan rowZeroBudget []).1 rfl).2,
   ((C2_budget_zero_or_nan rowNanBudget []).2 rfl).2⟩

/-! Claim C7: both day counts are clamped below by 1. -/

/-- C7: for every series accepted by `compute_kpis` (any dates, including
reversed or identical start and end dates), the returned `days_total` and
`days_elapsed` are at least 1. -/
theorem C7_days_at_least_one (rows : List Row) (k : KPIRecord)
    (h : compute_kpis rows = Except.ok k) :
    1 ≤ k.days_total ∧ 1 ≤ k.days_elapsed := by
  cases rows with
  | nil => exact absurd h (by simp [compute_kpis])
  | cons r0 rs =>
    have hk : mkKpis r0 rs = k := by
      simpa [compute_kpis] using h
    subst hk
    exact ⟨clampPos_pos _, clampPos_pos _⟩

/-- Witness for C7, on the reversed-dates series. -/
theorem C7_days_at_least_one_witness :
    1 ≤ (mkKpis rowBadDates []).days_total ∧
    1 ≤ (mkKpis rowBadDates []).days_elapsed :=
  C7_days_at_least_one [rowBadDates] (mkKpis rowBadDates []) rfl

/-! Claim C10: the `if days_elapsed else 0` guard on the burn rate is dead
code, because `days_elapsed` is already clamped to at least 1. -/

/-- C10: for every series accepted by `compute_kpis`, `days_elapsed` is
nonzero, and `burn_rate` is always the quotient `latest_spend /
days_elapsed` - the guarded `0` branch is never taken. -/
theorem C10_burn_rate_guard_dead (rows : List Row) (k : KPIRecord)
    (h : compute_kpis rows = Except.ok k) :
    k.days_elapsed ≠ 0 ∧
    k.burn_rate = pfDiv k.latest_spend (some ((k.days_elapsed : ℤ) : ℚ)) := by
  cases rows with
  | nil => exact absurd h (by simp [compute_kpis])
  | cons r0 rs =>
    have hk : mkKpis r0 rs = k := by
      simpa [compute_kpis] using h
    subst hk
    have hne : daysElapsedOf r0 rs ≠ 0 := by
      have := clampPos_pos ((latestOf r0 rs).date - startOf r0 rs)
      unfold daysElapsedOf
      omega
    refine ⟨hne, ?_⟩
    show burnRateOf r0 rs = pfDiv (latestSpendOf r0 rs) (some ((daysElapsedOf r0 rs : ℤ) : ℚ))
    unfold burnRateOf
    rw [if_pos hne]

/-- Witness for C10 on a concrete series. -/
theorem C10_burn_rate_guard_dead_witness :
    (mkKpis rowZeroBudget []).days_elapsed ≠ 0 ∧
    (mkKpis rowZeroBudget []).burn_rate
      = pfDiv (mkKpis rowZeroBudget []).latest_spend
          (some (((mkKpis rowZeroBudget []).days_elapsed : ℤ) : ℚ)) :=
  C10_burn_rate_guard_dead [rowZeroBudget] _ rfl

/-! Claim C8: the specification's end-to-end example. -/

/-- C8: on the example series (budget 1000, points (0,0), (10,400), (20,800),
start day 0, end day 40) the fitted line gives forecast 1600 at day 40,
variance -0.20, overload 0.60, risk score 12.0, and `flag_risk` at the default
thresholds (0.10, 5.0) reports the project as risky. -/
theorem C8_end_to_end_example :
    (compute_kpis exSeries).toOption.map (fun k => k.forecast_to_complete)
      = some (some 1600) ∧
    (compute_kpis exSeries).toOption.map (fun k => k.variance_pct)
      = some (some (-(20/100))) ∧
    (compute_kpis exSeries).toOption.map (fun k => recordOverload k)
      = some (some (60/100)) ∧
    (compute_kpis exSeries).toOption.map (fun k => k.risk_score)
      = some (some 12) ∧
    (compute_kpis exSeries).toOption.map
        (fun k => (flag_risk (toDict k) (10/100) 5).toOption.map (fun a => a.1))
      = some (some true) := by
  simp only [exSeries, exRow, compute_kpis, mkKpis, Except.toOption, Option.map,
    forecastOf, fallbackOf, polyfitLin, xsOf, ysOf, daysTotalOf, daysElapsedOf,
    latestSpendOf, latestOf, startOf, endOf, clampPos, pctExecutionOf,
    variancePctOf, burnRateOf, riskScoreOf, overloadOf, recordOverload, toDict,
    flag_risk, dictGet, pyGe, pyGt, pyClip, pyTruthy, pfAdd, pfSub, pfMul,
    pfDiv, pfAbs, List.foldl, List.map, List.sum, List.zip, List.all,
    List.length, Option.getD, min_def, max_def]
  norm_num [abs_of_nonneg, pure, Except.pure, Bind.bind, Except.bind]

/-! Claim C3.  The clamp does bound the risk score whenever the blended value
is an actual number, but a `nan` budget (or `nan` latest spend with a nonzero
budget) propagates `nan` through `variance_pct`/`overload`, and
`np.clip(nan, -1000, 1000)` is `nan` - outside every interval. -/

/-- C3 counterexample: on a series whose budget cell is missing, `risk_score`
is `nan`, which does not lie in `[-1000, 1000]` (it is not a finite number at
all), so the claim fails for this pathological budget input. -/
theorem C3_counterexample :
    (compute_kpis [rowNanBudget]).toOption.map (fun k => k.risk_score)
        = some none ∧
    ¬ ((compute_kpis [rowNanBudget]).toOption.map
        (fun k => k.risk_score.isSome) = some true) := by
  decide

/-! Claim C4 counterexample input: with a `nan` latest spend even the fallback
forecast is `nan`, not a finite number. -/

/-- C4 counterexample: on a one-point series whose spend cell is missing, the
fallback forecast `latest_spend * (days_total / days_elapsed)` is `nan`, so
`compute_kpis` does not always produce a finite numeric forecast. -/
theorem C4_counterexample :
    (compute_kpis [rowNanSpend]).toOption.map
        (fun k => k.forecast_to_complete) = some none := by
  decide

/-! Claim C6: condition structure and reason order of `flag_risk`. -/

/-- C6: for every KPI record (with its four read fields finite) and every pair
of thresholds, `flag_risk` succeeds, `is_risky` is exactly the disjunction of
the three conditions `|variance_pct| >= variance_threshold`,
`|risk_score| >= risk_threshold`, `forecast_to_complete > budget`, and the
reasons come in the fixed order variance, risk score, over-budget, with the
single no-risk fallback exactly when none of the three triggered. -/
theorem C6_flag_risk_structure (k : KPIRecord) (vp rp fc bu vt rt : ℚ)
    (h1 : k.variance_pct = some vp) (h2 : k.risk_score = some rp)
    (h3 : k.forecast_to_complete = some fc) (h4 : k.budget = some bu) :
    flag_risk (toDict k) vt rt =
      Except.ok
        ((decide (vt ≤ |vp|) || decide (rt ≤ |rp|) || decide (bu < fc)),
         ((if vt ≤ |vp| then [Reason.variance (some (vp * 100))] else []) ++
          (if rt ≤ |rp| then [Reason.riskScore (some rp)] else []) ++
          (if bu < fc then [Reason.overBudget] else [])) ++
         (if vt ≤ |vp| ∨ rt ≤ |rp| ∨ bu < fc then [] else [Reason.noRisk])) := by
  by_cases hv : vt ≤ |vp| <;> by_cases hr : rt ≤ |rp| <;> by_cases hf : bu < fc <;>
    simp [flag_risk, toDict, dictGet, h1, h2, h3, h4, pfAbs, pyGe, pyGt, pfMul,
      hv, hr, hf, Bind.bind, Except.bind, pure, Except.pure]

/-- Witness for C6: the theorem instantiated on the example record at the
default thresholds. -/
theorem C6_flag_risk_structure_witness :
    flag_risk (toDict exRecord) (10/100) 5 =
      Except.ok
        ((decide ((10/100 : ℚ) ≤ |(-(2/10) : ℚ)|) || decide ((5 : ℚ) ≤ |(12 : ℚ)|)
            || decide ((1000 : ℚ) < 1600)),
         ((if (10/100 : ℚ) ≤ |(-(2/10) : ℚ)| then
             [Reason.variance (some ((-(2/10)) * 100))] else []) ++
          (if (5 : ℚ) ≤ |(12 : ℚ)| then [Reason.riskScore (some 12)] else []) ++
          (if (1000 : ℚ) < 1600 then [Reason.overBudget] else [])) ++
         (if (10/100 : ℚ) ≤ |(-(2/10) : ℚ)| ∨ (5 : ℚ) ≤ |(12 : ℚ)|
              ∨ (1000 : ℚ) < 1600 then [] else [Reason.noRisk])) :=
  C6_flag_risk_structure exRecord (-(2/10)) 12 1600 1000 (10/100) 5 rfl rfl rfl rfl

/-! Claim C9: `flag_risk` on dicts with absent keys, at the source's default
thresholds. -/

/-- Evaluation of `flag_risk` at the default thresholds on an arbitrary dict:
it always succeeds, and every read goes through the defaulting `get` (a
triggered condition forces its key to be present, so the direct subscripts in
the message branches cannot raise). -/
theorem flag_risk_defaults_eq (d : KpiDict) :
    flag_risk d (10/100) 5 =
      Except.ok
        (pyGe (pfAbs (dictGet d.variance_pct)) (10/100)
           || pyGe (pfAbs (dictGet d.risk_score)) 5
           || pyGt (dictGet d.forecast_to_complete) (dictGet d.budget),
         (fun ms => if ms = [] then [Reason.noRisk] else ms)
           ((if pyGe (pfAbs (dictGet d.variance_pct)) (10/100) = true
             then [Reason.variance (pfMul (dictGet d.variance_pct) (some 100))]
             else []) ++
            ((if pyGe (pfAbs (dictGet d.risk_score)) 5 = true
              then [Reason.riskScore (dictGet d.risk_score)] else []) ++
             (if pyGt (dictGet d.forecast_to_complete) (dictGet d.budget) = true
              then [Reason.overBudget] else [])))) := by
  obtain ⟨vp, rp, fc, bu⟩ := d
  have hnone10 : pyGe (pfAbs (some (0 : ℚ))) (10/100) = false := by
    show decide ((10/100 : ℚ) ≤ |(0 : ℚ)|) = false
    simp only [abs_zero, decide_eq_false_iff_not]
    norm_num
  have hnone5 : pyGe (pfAbs (some (0 : ℚ))) 5 = false := by
    show decide ((5 : ℚ) ≤ |(0 : ℚ)|) = false
    simp only [abs_zero, decide_eq_false_iff_not]
    norm_num
  cases vp with
  | none =>
    cases rp with
    | none =>
      cases ho : pyGt (fc.getD (some 0)) (bu.getD (some 0)) <;>
        simp [flag_risk, hnone10, hnone5, ho, dictGet, Bind.bind, Except.bind,
          pure, Except.pure]
    | some r =>
      cases hr : pyGe (pfAbs r) 5 <;>
        cases ho : pyGt (fc.getD (some 0)) (bu.getD (some 0)) <;>
          simp [flag_risk, hnone10, hr, ho, dictGet, Bind.bind, Except.bind,
            pure, Except.pure]
  | some v =>
    cases rp with
    | none =>
      cases hv : pyGe (pfAbs v) (10/100) <;>
        cases ho : pyGt (fc.getD (some 0)) (bu.getD (some 0)) <;>
          simp [flag_risk, hnone5, hv, ho, dictGet, Bind.bind, Except.bind,
            pure, Except.pure]
    | some r =>
      cases hv : pyGe (pfAbs v) (10/100) <;>
        cases hr : pyGe (pfAbs r) 5 <;>
          cases ho : pyGt (fc.getD (some 0)) (bu.getD (some 0)) <;>
            simp [flag_risk, hv, hr, ho, dictGet, Bind.bind, Except.bind,
              pure, Except.pure]

/-- C9: at the default thresholds (0.10, 5.0), `flag_risk` never raises on any
dict - each absent field acts exactly as a present `0` - and on the dict with
all four fields absent it returns `is_risky = false` with the single no-risk
fallback reason. -/
theorem C9_flag_risk_absent_keys :
    (∀ d : KpiDict,
        (flag_risk d (10/100) 5).isOk = true ∧
        flag_risk d (10/100) 5 = flag_risk (fillAbsent d) (10/100) 5) ∧
    flag_risk { variance_pct := none, risk_score := none,
                forecast_to_complete := none, budget := none } (10/100) 5
      = Except.ok (false, [Reason.noRisk]) := by
  refine ⟨fun d => ⟨?_, ?_⟩, ?_⟩
  · rw [flag_risk_defaults_eq]
    rfl
  · rw [flag_risk_defaults_eq, flag_risk_defaults_eq]
    rfl
  · rw [flag_risk_defaults_eq]
    have hz : pyGe (pfAbs (dictGet (none : Option PyFloat))) (10/100) = false := by
      have : pyGe (pfAbs (dictGet (none : Option PyFloat))) (10/100)
          = decide ((10/100 : ℚ) ≤ |(0 : ℚ)|) := rfl
      rw [this]
      simp only [abs_zero, decide_eq_false_iff_not]
      norm_num
    have hz5 : pyGe (pfAbs (dictGet (none : Option PyFloat))) 5 = false := by
      have : pyGe (pfAbs (dictGet (none : Option PyFloat))) 5
          = decide ((5 : ℚ) ≤ |(0 : ℚ)|) := rfl
      rw [this]
      simp only [abs_zero, decide_eq_false_iff_not]
      norm_num
    have hgt : pyGt (dictGet (none : Option PyFloat))
        (dictGet (none : Option PyFloat)) = false := by
      have : pyGt (dictGet (none : Option PyFloat))
          (dictGet (none : Option PyFloat)) = decide ((0 : ℚ) < 0) := rfl
      rw [this]
      simp
    simp [hz, hz5, hgt]

/-! Claim C3, amended theorem. -/

/-- Whenever the latest spend is a finite number, the forecast is a number too
(either the exact fitted value or the finite fallback). -/
theorem forecastOf_isSome (r0 : Row) (rs : List Row) (v : ℚ)
    (hv : latestSpendOf r0 rs = some v) :
    (forecastOf r0 rs).isSome = true := by
  unfold forecastOf
  split
  · split
    · unfold fallbackOf
      rw [hv]
      rfl
    · rfl
  · unfold fallbackOf
    rw [hv]
    rfl

/-- C3 (amended): for every non-empty series whose budget and latest
cumulative spend are finite (non-`nan`) floats, the returned `risk_score` is a
finite number, equals the clamp of `100 * (0.6 * variance_pct + 0.4 *
overload)` to `[-1000, 1000]`, and lies in that interval - for arbitrary,
including pathological, date and spend magnitudes.  (A `nan` budget or `nan`
latest spend instead propagates `nan`, see the counterexample.) -/
theorem C3_risk_score_clamped (r0 : Row) (rs : List Row) (b v : ℚ)
    (hb : r0.budget = some b) (hv : latestSpendOf r0 rs = some v) :
    compute_kpis (r0 :: rs) = Except.ok (mkKpis r0 rs) ∧
    (mkKpis r0 rs).variance_pct.isSome = true ∧
    (recordOverload (mkKpis r0 rs)).isSome = true ∧
    (mkKpis r0 rs).risk_score
      = some (min (max (100 * ((6/10) * ((mkKpis r0 rs).variance_pct.getD 0)
              + (4/10) * ((recordOverload (mkKpis r0 rs)).getD 0))) (-1000)) 1000) ∧
    -1000 ≤ (mkKpis r0 rs).risk_score.getD 0 ∧
    (mkKpis r0 rs).risk_score.getD 0 ≤ 1000 := by
  have hvar : ∃ vp : ℚ, variancePctOf r0 rs = some vp := by
    by_cases hb0 : b = 0
    · refine ⟨0, ?_⟩
      unfold variancePctOf
      rw [hb, hb0]
      rfl
    · refine ⟨(v - b) / b, ?_⟩
      unfold variancePctOf
      rw [hb, hv]
      simp [pyTruthy, pfSub, pfDiv, hb0]
  have hfc : ∃ f : ℚ, forecastOf r0 rs = some f := by
    have := forecastOf_isSome r0 rs v hv
    cases hf : forecastOf r0 rs with
    | none => rw [hf] at this; exact absurd this (by simp)
    | some f => exact ⟨f, rfl⟩
  obtain ⟨f, hf⟩ := hfc
  have hov : ∃ ov : ℚ, overloadOf r0 rs = some ov := by
    by_cases hb0 : b = 0
    · refine ⟨0, ?_⟩
      unfold overloadOf
      rw [hb, hb0]
      rfl
    · refine ⟨(f - b) / b, ?_⟩
      unfold overloadOf
      rw [hb, hf]
      simp [pyTruthy, pfSub, pfDiv, hb0]
  obtain ⟨vp, hvp⟩ := hvar
  obtain ⟨ov, hov⟩ := hov
  have hvp' : (mkKpis r0 rs).variance_pct = some vp := hvp
  have hov' : recordOverload (mkKpis r0 rs) = some ov := by
    unfold recordOverload
    show (if pyTruthy r0.budget then
            pfDiv (pfSub (forecastOf r0 rs) r0.budget) r0.budget
          else some 0) = some ov
    exact hov
  have hrisk : (mkKpis r0 rs).risk_score
      = some (min (max ((vp * (6/10) + ov * (4/10)) * 100) (-1000)) 1000) := by
    show riskScoreOf r0 rs = _
    unfold riskScoreOf
    rw [hvp, hov]
    rfl
  refine ⟨rfl, by rw [hvp']; rfl, by rw [hov']; rfl, ?_, ?_, ?_⟩
  · rw [hrisk, hvp', hov']
    simp only [Option.getD_some]
    congr 1
    congr 1
    congr 1
    ring
  · rw [hrisk]
    simp only [Option.getD_some]
    have h1 : (-1000 : ℚ) ≤ max ((vp * (6/10) + ov * (4/10)) * 100) (-1000) :=
      le_max_right _ _
    have h2 : (-1000 : ℚ) ≤ (1000 : ℚ) := by norm_num
    exact le_min h1 h2
  · rw [hrisk]
    simp only [Option.getD_some]
    exact min_le_right _ _

/-- Witness for C3 on a concrete zero-budget series. -/
theorem C3_risk_score_clamped_witness :
    compute_kpis [rowZeroBudget] = Except.ok (mkKpis rowZeroBudget []) ∧
    (mkKpis rowZeroBudget []).variance_pct.isSome = true ∧
    (recordOverload (mkKpis rowZeroBudget [])).isSome = true ∧
    (mkKpis rowZeroBudget []).risk_score
      = some (min (max (100 * ((6/10) * ((mkKpis rowZeroBudget []).variance_pct.getD 0)
              + (4/10) * ((recordOverload (mkKpis rowZeroBudget [])).getD 0))) (-1000)) 1000) ∧
    -1000 ≤ (mkKpis rowZeroBudget []).risk_score.getD 0 ∧
    (mkKpis rowZeroBudget []).risk_score.getD 0 ≤ 1000 :=
  C3_risk_score_clamped rowZeroBudget [] 0 100 rfl rfl

/-! Claim C4: the forecast policy.  The mathematical core is that the pair
returned by `polyfitLin` minimises the sum of squared residuals. -/

theorem sum_sq_nonneg (l : List ℚ) : 0 ≤ (l.map (fun t => t ^ 2)).sum := by
  induction l with
  | nil => simp
  | cons a l ih =>
    simp only [List.map_cons, List.sum_cons]
    exact add_nonneg (sq_nonneg a) ih

theorem sum_sq_eq_zero {l : List ℚ} (h : (l.map (fun t => t ^ 2)).sum = 0) :
    ∀ t ∈ l, t = 0 := by
  induction l with
  | nil => simp
  | cons a l ih =>
    simp only [List.map_cons, List.sum_cons] at h
    have ha : a ^ 2 = 0 := by
      nlinarith [sum_sq_nonneg l, sq_nonneg a]
    have hl : (l.map (fun t => t ^ 2)).sum = 0 := by
      nlinarith [sum_sq_nonneg l, sq_nonneg a]
    intro t ht
    rcases List.mem_cons.mp ht with rfl | ht
    · exact pow_eq_zero_iff (by norm_num) |>.mp ha
    · exact ih hl t ht

theorem sum_shift_sq (l : List ℚ) (a : ℚ) :
    (l.map (fun t => (t - a) ^ 2)).sum
      = (l.map (fun t => t ^ 2)).sum - 2 * a * l.sum + (l.length : ℚ) * a ^ 2 := by
  induction l with
  | nil => simp
  | cons b l ih =>
    simp only [List.map_cons, List.sum_cons, List.length_cons]
    push_cast
    linear_combination ih

theorem lagrange_nonneg (l : List ℚ) :
    0 ≤ (l.length : ℚ) * (l.map (fun t => t ^ 2)).sum - l.sum ^ 2 := by
  induction l with
  | nil => simp
  | cons a l ih =>
    have hshift : 0 ≤ (l.map (fun t => (t - a) ^ 2)).sum := by
      have := sum_sq_nonneg (l.map (fun t => t - a))
      rwa [List.map_map] at this
    have hkey := sum_shift_sq l a
    simp only [List.map_cons, List.sum_cons, List.length_cons]
    push_cast
    nlinarith [ih, hshift, hkey]

theorem lagrange_eq_zero_all_eq {l : List ℚ}
    (h : (l.length : ℚ) * (l.map (fun t => t ^ 2)).sum - l.sum ^ 2 = 0) :
    ∀ t ∈ l, t = l.headI := by
  cases l with
  | nil => simp
  | cons a l =>
    have hD := lagrange_nonneg l
    have hS : 0 ≤ (l.map (fun t => (t - a) ^ 2)).sum := by
      have := sum_sq_nonneg (l.map (fun t => t - a))
      rwa [List.map_map] at this
    have hkey := sum_shift_sq l a
    simp only [List.map_cons, List.sum_cons, List.length_cons] at h
    push_cast at h
    have hzero : (l.map (fun t => (t - a) ^ 2)).sum = 0 := by
      nlinarith [hD, hS, hkey, h]
    have hall : ∀ t ∈ l.map (fun t => t - a), t = 0 := by
      have : ((l.map (fun t => t - a)).map (fun t => t ^ 2)).sum = 0 := by
        rwa [List.map_map]
      exact sum_sq_eq_zero this
    intro t ht
    rcases List.mem_cons.mp ht with rfl | ht
    · rfl
    · have := hall (t - a) (List.mem_map_of_mem _ ht)
      simp only [List.headI]
      linarith

theorem sse_expand (m c : ℚ) (pts : List (ℚ × ℚ)) :
    SSE m c pts
      = sYY pts - 2 * m * sXY pts + m ^ 2 * sXX pts + (pts.length : ℚ) * c ^ 2
          - 2 * c * sY pts + 2 * m * c * sX pts := by
  induction pts with
  | nil => simp [SSE, sX, sY, sXX, sXY, sYY]
  | cons p l ih =>
    simp only [SSE, sX, sY, sXX, sXY, sYY, List.map_cons, List.sum_cons,
      List.length_cons] at *
    push_cast
    linear_combination ih

theorem sum_all_eq {l : List ℚ} {c : ℚ} (h : ∀ t ∈ l, t = c) :
    l.sum = (l.length : ℚ) * c := by
  induction l with
  | nil => simp
  | cons a l ih =>
    simp only [List.sum_cons, List.length_cons]
    rw [h a (List.mem_cons_self a l), ih (fun t ht => h t (List.mem_cons_of_mem a ht))]
    push_cast
    ring

theorem sum_map_mul_snd (l : List (ℚ × ℚ)) (c : ℚ) :
    (l.map (fun p => c * p.2)).sum = c * (l.map (fun p => p.2)).sum := by
  induction l with
  | nil => simp
  | cons p l ih =>
    simp only [List.map_cons, List.sum_cons, ih]
    ring

/-- The pair computed by `polyfitLin` minimises the sum of squared residuals
over the given points, whenever there are at least two points and the
x-values are not all zero (the source's guard before the fit runs). -/
theorem polyfitLin_isLSQ (x y : List ℚ) (hlen : x.length = y.length)
    (h2 : 2 ≤ x.length) (hnz : ¬ (x.all (fun t => t = 0) = true)) :
    ∀ m c, SSE (polyfitLin x y).1 (polyfitLin x y).2 (x.zip y)
      ≤ SSE m c (x.zip y) := by
  intro m c
  have hxlen0 : 0 < x.length := lt_of_lt_of_le (by norm_num) h2
  have hnpos : (0 : ℚ) < (x.length : ℚ) := by exact_mod_cast hxlen0
  have hn0 : ((x.length : ℚ)) ≠ 0 := ne_of_gt hnpos
  have hfst : (x.zip y).map (fun p => p.1) = x := by
    simpa using List.map_fst_zip x y (le_of_eq hlen)
  have hsnd : (x.zip y).map (fun p => p.2) = y := by
    simpa using List.map_snd_zip x y (le_of_eq hlen.symm)
  have hplen : ((x.zip y).length : ℚ) = (x.length : ℚ) := by
    rw [List.length_zip, hlen, min_self, ← hlen]
  have hsX : sX (x.zip y) = x.sum := by
    unfold sX; rw [hfst]
  have hsY : sY (x.zip y) = y.sum := by
    unfold sY; rw [hsnd]
  have hsqmap : x.map (fun t => t * t) = x.map (fun t => t ^ 2) :=
    List.map_congr_left (fun t _ => by ring)
  have hsXX : sXX (x.zip y) = (x.map (fun t => t * t)).sum := by
    unfold sXX
    rw [hsqmap]
    have : (x.zip y).map (fun p => p.1 ^ 2)
        = ((x.zip y).map (fun p => p.1)).map (fun t => t ^ 2) := by
      rw [List.map_map]; rfl
    rw [this, hfst]
  have hsXY : sXY (x.zip y) = ((x.zip y).map (fun p => p.1 * p.2)).sum := rfl
  have hlag : 0 ≤ (x.length : ℚ) * (x.map (fun t => t * t)).sum - x.sum * x.sum := by
    have := lagrange_nonneg x
    rw [hsqmap]
    nlinarith [this]
  by_cases hdet : (x.length : ℚ) * (x.map (fun t => t * t)).sum - x.sum * x.sum = 0
  · -- all x-values equal; the guard makes their common value nonzero
    have hD2 : (x.length : ℚ) * (x.map (fun t => t ^ 2)).sum - x.sum ^ 2 = 0 := by
      rw [← hsqmap]
      nlinarith [hdet]
    have hall : ∀ t ∈ x, t = x.headI := lagrange_eq_zero_all_eq hD2
    have hc0 : x.headI ≠ 0 := by
      simp only [List.all_eq_true, decide_eq_true_eq] at hnz
      push_neg at hnz
      obtain ⟨t, ht, htne⟩ := hnz
      rw [hall t ht] at htne
      exact htne
    have hfit : polyfitLin x y
        = (y.sum / (x.length : ℚ) / (2 * x.headI), y.sum / (x.length : ℚ) / 2) := by
      simp only [polyfitLin]
      rw [if_pos hdet]
    have hallp : ∀ p ∈ x.zip y, p.1 = x.headI := by
      intro p hp
      exact hall p.1 (by rw [← hfst]; exact List.mem_map_of_mem _ hp)
    have haX : sX (x.zip y) = ((x.zip y).length : ℚ) * x.headI := by
      unfold sX
      rw [← List.length_map (x.zip y) (fun p => p.1)]
      exact sum_all_eq (by
        intro t ht
        obtain ⟨p, hp, rfl⟩ := List.mem_map.mp ht
        exact hallp p hp)
    have haXX : sXX (x.zip y) = ((x.zip y).length : ℚ) * x.headI ^ 2 := by
      unfold sXX
      rw [← List.length_map (x.zip y) (fun p => p.1 ^ 2)]
      exact sum_all_eq (by
        intro t ht
        obtain ⟨p, hp, rfl⟩ := List.mem_map.mp ht
        rw [hallp p hp])
    have haXY : sXY (x.zip y) = x.headI * sY (x.zip y) := by
      unfold sXY sY
      rw [List.map_congr_left (fun p hp => by
        rw [hallp p hp] : ∀ p ∈ x.zip y, p.1 * p.2 = x.headI * p.2)]
      exact sum_map_mul_snd _ _
    rw [hfit]
    have key : SSE m c (x.zip y)
        - SSE (y.sum / (x.length : ℚ) / (2 * x.headI)) (y.sum / (x.length : ℚ) / 2)
            (x.zip y)
        = (x.length : ℚ)
            * ((m * x.headI + c) - y.sum / (x.length : ℚ)) ^ 2 := by
      rw [sse_expand, sse_expand, haX, haXX, haXY, hplen, hsY]
      field_simp
      ring
    nlinarith [key, sq_nonneg ((m * x.headI + c) - y.sum / (x.length : ℚ)), hnpos]
  · -- the normal equations are nonsingular: the unique least-squares line
    have hDpos : 0 < (x.length : ℚ) * (x.map (fun t => t * t)).sum - x.sum * x.sum :=
      lt_of_le_of_ne hlag (Ne.symm hdet)
    have hfit : polyfitLin x y
        = (((x.length : ℚ) * ((x.zip y).map (fun p => p.1 * p.2)).sum - x.sum * y.sum)
              / ((x.length : ℚ) * (x.map (fun t => t * t)).sum - x.sum * x.sum),
           (y.sum - ((x.length : ℚ) * ((x.zip y).map (fun p => p.1 * p.2)).sum - x.sum * y.sum)
              / ((x.length : ℚ) * (x.map (fun t => t * t)).sum - x.sum * x.sum) * x.sum)
              / (x.length : ℚ)) := by
      simp only [polyfitLin]
      rw [if_neg hdet]
    rw [hfit]
    have hDne : ((x.length : ℚ) * (x.map (fun t => t * t)).sum - x.sum * x.sum) ≠ 0 :=
      ne_of_gt hDpos
    have key : SSE m c (x.zip y)
        - SSE (((x.length : ℚ) * ((x.zip y).map (fun p => p.1 * p.2)).sum - x.sum * y.sum)
              / ((x.length : ℚ) * (x.map (fun t => t * t)).sum - x.sum * x.sum))
            ((y.sum - ((x.length : ℚ) * ((x.zip y).map (fun p => p.1 * p.2)).sum - x.sum * y.sum)
              / ((x.length : ℚ) * (x.map (fun t => t * t)).sum - x.sum * x.sum) * x.sum)
              / (x.length : ℚ))
            (x.zip y)
        = (((x.length : ℚ) * (x.map (fun t => t * t)).sum - x.sum * x.sum) / (x.length : ℚ))
            * (m - ((x.length : ℚ) * ((x.zip y).map (fun p => p.1 * p.2)).sum - x.sum * y.sum)
              / ((x.length : ℚ) * (x.map (fun t => t * t)).sum - x.sum * x.sum)) ^ 2
          + (x.length : ℚ) * (c - (y.sum - m * x.sum) / (x.length : ℚ)) ^ 2 := by
      rw [sse_expand, sse_expand, ← hsXY, hsX, hsY, hplen]
      rw [show sXX (x.zip y) = (x.map (fun t => t * t)).sum from hsXX]
      field_simp
      ring
    have t1 : 0 ≤ (((x.length : ℚ) * (x.map (fun t => t * t)).sum - x.sum * x.sum)
          / (x.length : ℚ))
        * (m - ((x.length : ℚ) * ((x.zip y).map (fun p => p.1 * p.2)).sum - x.sum * y.sum)
          / ((x.length : ℚ) * (x.map (fun t => t * t)).sum - x.sum * x.sum)) ^ 2 :=
      mul_nonneg (le_of_lt (div_pos hDpos hnpos)) (sq_nonneg _)
    have t2 : 0 ≤ (x.length : ℚ) * (c - (y.sum - m * x.sum) / (x.length : ℚ)) ^ 2 :=
      mul_nonneg (le_of_lt hnpos) (sq_nonneg _)
    linarith [key, t1, t2]

/-- C4 (amended): for every non-empty series, `compute_kpis` succeeds (a fit
failure is never surfaced), and the forecast follows the source's policy:
with at least 2 points, all spends finite, and not all day-offsets zero, it is
a least-squares degree-1 fit of cumulative spend against days-since-start over
all points evaluated at `days_total`; otherwise (fewer than 2 points, a
non-finite spend, or all day-offsets zero - the one case in which the fit
raises and the bare `except` catches) it is the fallback
`latest_spend * (days_total / days_elapsed)`.  The forecast is a finite
number whenever the latest spend is finite; a `nan` latest spend propagates
`nan` (see the counterexample). -/
theorem C4_forecast_policy (r0 : Row) (rs : List Row) :
    compute_kpis (r0 :: rs) = Except.ok (mkKpis r0 rs) ∧
    ((2 ≤ (xsOf r0 rs).length ∧ (ysOf r0 rs).all (fun v => v.isSome) = true) →
      (¬ ((xsOf r0 rs).all (fun t => t = 0) = true) →
        (mkKpis r0 rs).forecast_to_complete
          = some ((polyfitLin (xsOf r0 rs) ((ysOf r0 rs).map (fun v => v.getD 0))).1
                    * ((mkKpis r0 rs).days_total : ℚ)
                  + (polyfitLin (xsOf r0 rs) ((ysOf r0 rs).map (fun v => v.getD 0))).2) ∧
        (∀ m c,
          SSE (polyfitLin (xsOf r0 rs) ((ysOf r0 rs).map (fun v => v.getD 0))).1
              (polyfitLin (xsOf r0 rs) ((ysOf r0 rs).map (fun v => v.getD 0))).2
              ((xsOf r0 rs).zip ((ysOf r0 rs).map (fun v => v.getD 0)))
            ≤ SSE m c ((xsOf r0 rs).zip ((ysOf r0 rs).map (fun v => v.getD 0))))) ∧
      (((xsOf r0 rs).all (fun t => t = 0) = true) →
        (mkKpis r0 rs).forecast_to_complete
          = pfMul (mkKpis r0 rs).latest_spend
              (some (((mkKpis r0 rs).days_total : ℚ)
                      / ((mkKpis r0 rs).days_elapsed : ℚ))))) ∧
    (¬ (2 ≤ (xsOf r0 rs).length ∧ (ysOf r0 rs).all (fun v => v.isSome) = true) →
      (mkKpis r0 rs).forecast_to_complete
        = pfMul (mkKpis r0 rs).latest_spend
            (some (((mkKpis r0 rs).days_total : ℚ)
                    / ((mkKpis r0 rs).days_elapsed : ℚ)))) ∧
    (∀ v, latestSpendOf r0 rs = some v →
      ((mkKpis r0 rs).forecast_to_complete).isSome = true) := by
  refine ⟨rfl, ?_, ?_, ?_⟩
  · rintro ⟨h2, hfin⟩
    constructor
    · intro hnz
      constructor
      · show forecastOf r0 rs = _
        unfold forecastOf
        rw [if_pos ⟨h2, hfin⟩, if_neg hnz]
        rfl
      · exact polyfitLin_isLSQ _ _ (by simp [xsOf, ysOf]) h2 hnz
    · intro hz
      show forecastOf r0 rs = _
      unfold forecastOf
      rw [if_pos ⟨h2, hfin⟩, if_pos hz]
      rfl
  · intro hno
    show forecastOf r0 rs = _
    unfold forecastOf
    rw [if_neg hno]
    rfl
  · exact fun v hv => forecastOf_isSome r0 rs v hv

/-- Witness for C4: on the example series the fit branch applies, the forecast
is the fitted value at `days_total`, and the fitted line beats the concrete
competitor line `y = 0`. -/
theorem C4_forecast_policy_witness :
    (mkKpis (exRow 0 0) [exRow 10 400, exRow 20 800]).forecast_to_complete
      = some ((polyfitLin (xsOf (exRow 0 0) [exRow 10 400, exRow 20 800])
                  ((ysOf (exRow 0 0) [exRow 10 400, exRow 20 800]).map
                    (fun v => v.getD 0))).1
                * ((mkKpis (exRow 0 0) [exRow 10 400, exRow 20 800]).days_total : ℚ)
              + (polyfitLin (xsOf (exRow 0 0) [exRow 10 400, exRow 20 800])
                  ((ysOf (exRow 0 0) [exRow 10 400, exRow 20 800]).map
                    (fun v => v.getD 0))).2) ∧
    SSE (polyfitLin (xsOf (exRow 0 0) [exRow 10 400, exRow 20 800])
          ((ysOf (exRow 0 0) [exRow 10 400, exRow 20 800]).map (fun v => v.getD 0))).1
        (polyfitLin (xsOf (exRow 0 0) [exRow 10 400, exRow 20 800])
          ((ysOf (exRow 0 0) [exRow 10 400, exRow 20 800]).map (fun v => v.getD 0))).2
        ((xsOf (exRow 0 0) [exRow 10 400, exRow 20 800]).zip
          ((ysOf (exRow 0 0) [exRow 10 400, exRow 20 800]).map (fun v => v.getD 0)))
      ≤ SSE 0 0
        ((xsOf (exRow 0 0) [exRow 10 400, exRow 20 800]).zip
          ((ysOf (exRow 0 0) [exRow 10 400, exRow 20 800]).map (fun v => v.getD 0))) := by
  have h2 : 2 ≤ (xsOf (exRow 0 0) [exRow 10 400, exRow 20 800]).length := by
    simp [xsOf]
  have hfin : (ysOf (exRow 0 0) [exRow 10 400, exRow 20 800]).all
      (fun v => v.isSome) = true := rfl
  have hnz : ¬ ((xsOf (exRow 0 0) [exRow 10 400, exRow 20 800]).all
      (fun t => t = 0) = true) := by
    simp only [xsOf, exRow, startOf, List.map_cons, List.map_nil, List.all_cons,
      List.all_nil, Bool.and_eq_true, decide_eq_true_eq]
    intro h
    have := h.2.1
    norm_num at this
  have h := ((C4_forecast_policy (exRow 0 0) [exRow 10 400, exRow 20 800]).2.1
    ⟨h2, hfin⟩).1 hnz
  exact ⟨h.1, h.2 0 0⟩

/-! Claim C5: ordering of `summary_table`.  pandas `groupby` pre-orders the
rows by ascending project id (not input encounter order), and the descending
`sort_values` is stable in the modelled regime, so ties follow the groupby
order. -/

theorem pairwise_rowAfter_of_none {l : List SummaryRow}
    (h : ∀ b ∈ l, b.risk_score = none) : l.Pairwise rowAfter := by
  induction l with
  | nil => exact List.Pairwise.nil
  | cons a l ih =>
    exact List.Pairwise.cons
      (fun b hb => Or.inl (h b (List.mem_cons_of_mem a hb)))
      (ih (fun b hb => h b (List.mem_cons_of_mem a hb)))

theorem orderedInsert_filter_riskEq (a : SummaryRow) (q : ℚ)
    (l : List SummaryRow) :
    (List.orderedInsert (fun x y => riskKey x ≤ riskKey y) a l).filter
        (fun s => s.risk_score = some q)
      = if a.risk_score = some q then
          a :: l.filter (fun s => s.risk_score = some q)
        else l.filter (fun s => s.risk_score = some q) := by
  induction l with
  | nil =>
    by_cases hpa : a.risk_score = some q <;>
      simp [List.orderedInsert, List.filter, hpa]
  | cons b t ih =>
    by_cases hr : riskKey a ≤ riskKey b
    · simp only [List.orderedInsert, if_pos hr]
      by_cases hpa : a.risk_score = some q <;>
        simp [List.filter_cons, hpa]
    · simp only [List.orderedInsert, if_neg hr]
      by_cases hpa : a.risk_score = some q
      · by_cases hpb : b.risk_score = some q
        · exfalso
          apply hr
          have ha : riskKey a = q := by rw [riskKey, hpa]; rfl
          have hb : riskKey b = q := by rw [riskKey, hpb]; rfl
          rw [ha, hb]
        · simp [List.filter_cons, hpa, hpb, ih]
      · simp [List.filter_cons, hpa, ih]

theorem insertionSort_filter_riskEq (q : ℚ) (l : List SummaryRow) :
    (List.insertionSort (fun x y => riskKey x ≤ riskKey y) l).filter
        (fun s => s.risk_score = some q)
      = l.filter (fun s => s.risk_score = some q) := by
  induction l with
  | nil => rfl
  | cons a t ih =>
    simp only [List.insertionSort]
    rw [orderedInsert_filter_riskEq]
    by_cases hpa : a.risk_score = some q <;>
      simp [List.filter_cons, hpa, ih]

theorem summaryRowOf_id (df : List Row) (pid : String) (s : SummaryRow)
    (h : summaryRowOf df pid = Except.ok s) : s.project_id = pid := by
  unfold summaryRowOf at h
  cases hk : compute_kpis (groupOf df pid) with
  | error e =>
    rw [hk] at h
    simp [Bind.bind, Except.bind] at h
  | ok k =>
    rw [hk] at h
    simp only [Bind.bind, Except.bind, pure, Except.pure, Except.ok.injEq] at h
    rw [← h]

theorem summaryRowsOf_ids (df : List Row) :
    ∀ ids rows, summaryRowsOf df ids = Except.ok rows →
      rows.map (fun s => s.project_id) = ids := by
  intro ids
  induction ids with
  | nil =>
    intro rows h
    simp only [summaryRowsOf, pure, Except.pure, Except.ok.injEq] at h
    rw [← h]
    rfl
  | cons i t ih =>
    intro rows h
    unfold summaryRowsOf at h
    cases hs : summaryRowOf df i with
    | error e =>
      rw [hs] at h
      simp [Bind.bind, Except.bind] at h
    | ok s =>
      rw [hs] at h
      cases hrest : summaryRowsOf df t with
      | error e =>
        rw [hrest] at h
        simp [Bind.bind, Except.bind] at h
      | ok l' =>
        rw [hrest] at h
        simp only [Bind.bind, Except.bind, pure, Except.pure,
          Except.ok.injEq] at h
        rw [← h]
        simp only [List.map_cons]
        rw [summaryRowOf_id df i s hs, ih l' hrest]

theorem groupIds_sorted (df : List Row) :
    List.Pairwise (fun a b : String => a ≤ b) (groupIds df) := by
  unfold groupIds
  exact List.sorted_insertionSort _ _

theorem sortValuesDescRisk_pairwise (rows : List SummaryRow) :
    (sortValuesDescRisk rows).Pairwise rowAfter := by
  haveI : IsTotal SummaryRow (fun x y => riskKey x ≤ riskKey y) :=
    ⟨fun a b => le_total (riskKey a) (riskKey b)⟩
  haveI : IsTrans SummaryRow (fun x y => riskKey x ≤ riskKey y) :=
    ⟨fun a b c hab hbc => le_trans hab hbc⟩
  unfold sortValuesDescRisk
  rw [List.pairwise_append]
  refine ⟨?_, ?_, ?_⟩
  · have hs : List.Sorted (fun x y => riskKey x ≤ riskKey y)
        (List.insertionSort (fun x y => riskKey x ≤ riskKey y)
          (rows.filter (fun s => s.risk_score.isSome)).reverse) :=
      List.sorted_insertionSort _ _
    have hrev := List.pairwise_reverse.mpr hs
    refine hrev.imp_of_mem ?_
    intro a b ha hb hle
    have hmem : ∀ c : SummaryRow,
        c ∈ (List.insertionSort (fun x y => riskKey x ≤ riskKey y)
          (rows.filter (fun s => s.risk_score.isSome)).reverse).reverse →
        c.risk_score.isSome = true := by
      intro c hc
      rw [List.mem_reverse] at hc
      have hc' := (List.perm_insertionSort (fun x y => riskKey x ≤ riskKey y)
        (rows.filter (fun s => s.risk_score.isSome)).reverse).mem_iff.mp hc
      rw [List.mem_reverse] at hc'
      exact (List.mem_filter.mp hc').2
    obtain ⟨qa, hqa⟩ := Option.isSome_iff_exists.mp (hmem a ha)
    obtain ⟨qb, hqb⟩ := Option.isSome_iff_exists.mp (hmem b hb)
    refine Or.inr ⟨qa, qb, hqa, hqb, ?_⟩
    have hka : riskKey b = qb := by rw [riskKey, hqb]; rfl
    have hkb : riskKey a = qa := by rw [riskKey, hqa]; rfl
    have : riskKey b ≤ riskKey a := hle
    rw [hka, hkb] at this
    exact this
  · exact pairwise_rowAfter_of_none (fun b hb => by
      have := (List.mem_filter.mp hb).2
      simpa [Option.isNone_iff_eq_none] using this)
  · intro a _ b hb
    refine Or.inl ?_
    have := (List.mem_filter.mp hb).2
    simpa [Option.isNone_iff_eq_none] using this

theorem sortValuesDescRisk_filter (rows : List SummaryRow) (q : ℚ) :
    (sortValuesDescRisk rows).filter (fun s => s.risk_score = some q)
      = rows.filter (fun s => s.risk_score = some q) := by
  unfold sortValuesDescRisk
  rw [List.filter_append]
  have hnan : (rows.filter (fun s => s.risk_score.isNone)).filter
      (fun s => s.risk_score = some q) = [] := by
    rw [List.filter_eq_nil_iff]
    intro a ha
    have h2 := (List.mem_filter.mp ha).2
    rw [Option.isNone_iff_eq_none] at h2
    simp [h2]
  rw [hnan, List.append_nil, List.filter_reverse, insertionSort_filter_riskEq,
    List.filter_reverse, List.reverse_reverse, List.filter_filter]
  refine List.filter_congr ?_
  intro a _
  cases ha : a.risk_score <;> simp [ha]

/-- C5 (amended): the rows of `summary_table` are sorted in descending order
of `risk_score` (rows with `nan` risk score at the end), but rows with equal
risk score appear in ascending project-id order - the order `groupby`
produces - rather than in input encounter order: the tied rows of the output
are exactly the tied rows of the groupby-ordered `projects` list, whose
project ids ascend.  (Modelled for the regime in which numpy's default sort
is its stable insertion sort, i.e. below 16 rows; numpy does not guarantee
tie order above that.) -/
theorem C5_summary_order (df : List Row) (rows0 l : List SummaryRow)
    (h0 : groupRows df = Except.ok rows0)
    (h : summary_table df = Except.ok l) :
    l.Pairwise rowAfter ∧
    (∀ q : ℚ, l.filter (fun s => s.risk_score = some q)
        = rows0.filter (fun s => s.risk_score = some q)) ∧
    rows0.map (fun s => s.project_id) = groupIds df ∧
    List.Pairwise (fun a b : SummaryRow => a.project_id ≤ b.project_id) rows0 := by
  have hl : l = sortValuesDescRisk rows0 := by
    unfold summary_table at h
    rw [h0] at h
    simp only [Bind.bind, Except.bind, pure, Except.pure, Except.ok.injEq] at h
    exact h.symm
  subst hl
  refine ⟨sortValuesDescRisk_pairwise rows0,
    fun q => sortValuesDescRisk_filter rows0 q,
    summaryRowsOf_ids df (groupIds df) rows0 h0, ?_⟩
  have hmap := summaryRowsOf_ids df (groupIds df) rows0 h0
  have hsorted := groupIds_sorted df
  rw [← hmap] at hsorted
  exact List.pairwise_map.mp hsorted

theorem compute_kpis_rowTie (pid nm : String) :
    compute_kpis [rowTie pid nm] = Except.ok
      { budget := some 1000, latest_spend := some 500,
        pct_execution := some (1/2), variance_pct := some (-(1/2)),
        burn_rate := some 100, days_elapsed := 5, days_total := 10,
        forecast_to_complete := some 1000, risk_score := some (-30),
        latest_date := 5 } := by
  simp only [rowTie, compute_kpis, mkKpis, forecastOf, fallbackOf, polyfitLin,
    xsOf, ysOf, daysTotalOf, daysElapsedOf, latestSpendOf, latestOf, startOf,
    endOf, clampPos, pctExecutionOf, variancePctOf, burnRateOf, riskScoreOf,
    overloadOf, pyClip, pyTruthy, pfAdd, pfSub, pfMul, pfDiv, List.foldl,
    List.map, List.sum, List.zip, List.all, List.length, Option.getD, min_def,
    max_def, Except.ok.injEq, KPIRecord.mk.injEq]
  norm_num

theorem groupOf_dfTie_a : groupOf dfTie "a" = [rowTie "a" "A"] := by decide

theorem groupOf_dfTie_b : groupOf dfTie "b" = [rowTie "b" "B"] := by decide

theorem groupIds_dfTie : groupIds dfTie = ["a", "b"] := by
  have hba : ¬ (("b" : String) ≤ "a") := by
    rw [String.le_iff_toList_le]
    decide
  have hdedup : (dfTie.map (fun r => r.project_id)).dedup = ["b", "a"] := by
    decide
  unfold groupIds
  rw [hdedup]
  simp [List.insertionSort, List.orderedInsert, hba]

theorem summaryRowOf_dfTie_a :
    summaryRowOf dfTie "a" = Except.ok (tieRow "a" "A") := by
  unfold summaryRowOf
  rw [groupOf_dfTie_a, compute_kpis_rowTie]
  simp [Bind.bind, Except.bind, pure, Except.pure, tieRow, rowTie]

theorem summaryRowOf_dfTie_b :
    summaryRowOf dfTie "b" = Except.ok (tieRow "b" "B") := by
  unfold summaryRowOf
  rw [groupOf_dfTie_b, compute_kpis_rowTie]
  simp [Bind.bind, Except.bind, pure, Except.pure, tieRow, rowTie]

theorem groupRows_dfTie :
    groupRows dfTie = Except.ok [tieRow "a" "A", tieRow "b" "B"] := by
  unfold groupRows
  rw [groupIds_dfTie]
  simp [summaryRowsOf, summaryRowOf_dfTie_a, summaryRowOf_dfTie_b,
    Bind.bind, Except.bind, pure, Except.pure]

theorem sortValuesDescRisk_tie :
    sortValuesDescRisk [tieRow "a" "A", tieRow "b" "B"]
      = [tieRow "a" "A", tieRow "b" "B"] := by
  simp [sortValuesDescRisk, tieRow, riskKey, List.insertionSort,
    List.orderedInsert, List.filter]

theorem summary_table_dfTie :
    summary_table dfTie = Except.ok [tieRow "a" "A", tieRow "b" "B"] := by
  unfold summary_table
  rw [groupRows_dfTie]
  simp [Bind.bind, Except.bind, pure, Except.pure, sortValuesDescRisk_tie]

/-- C5 counterexample: on two tied projects met in the order "b", "a", the
summary's rows come out in the order "a", "b" - `groupby`'s ascending id
order, not the input encounter order - so stable-sort tie-breaking over the
encounter order, as the claim states it, is false. -/
theorem C5_counterexample :
    summary_table dfTie = Except.ok [tieRow "a" "A", tieRow "b" "B"] ∧
    (tieRow "a" "A").risk_score = (tieRow "b" "B").risk_score ∧
    dfTie.map (fun r => r.project_id) = ["b", "a"] ∧
    [tieRow "a" "A", tieRow "b" "B"].map (fun s => s.project_id) ≠ ["b", "a"] := by
  refine ⟨summary_table_dfTie, rfl, by decide, by decide⟩

/-- Witness for C5: the amended theorem applied to the two-project tie frame,
with the tie-filter conclusion instantiated at the tied risk score -30. -/
theorem C5_summary_order_witness :
    ([tieRow "a" "A", tieRow "b" "B"] : List SummaryRow).Pairwise rowAfter ∧
    [tieRow "a" "A", tieRow "b" "B"].filter
        (fun s => s.risk_score = some (-30))
      = [tieRow "a" "A", tieRow "b" "B"].filter
        (fun s => s.risk_score = some (-30)) ∧
    [tieRow "a" "A", tieRow "b" "B"].map (fun s => s.project_id)
      = groupIds dfTie ∧
    List.Pairwise (fun a b : SummaryRow => a.project_id ≤ b.project_id)
      [tieRow "a" "A", tieRow "b" "B"] := by
  obtain ⟨h1, h2, h3, h4⟩ :=
    C5_summary_order dfTie _ _ groupRows_dfTie summary_table_dfTie
  exact ⟨h1, h2 (-30), h3, h4⟩
